import Mathlib

/-!
# pi_exporter: a shallow embedding of `exporter/exporter.go`

The Go package `exporter` is embedded as pure Lean functions.

* Machine integers (`int`, `uint`) are mathematical integers together with an explicit
  bit width `w` (32 or 64 for Go); every operation that can overflow reduces modulo `2 ^ w`.
* Calls that leave the package (`exec`, `ioutil`, `memcache`, the decoders `parseStats`
  and `parseStatsSettings`) are described by an environment that fixes the outcome of each
  call, so a statement quantified over the environment covers every combination of outcomes.
* `Collect` returns the log of the steps it performed, in order, and the content of the
  output channel.
-/

namespace PiExporter

/-! ## Fixed-width integers -/

/-- The bit pattern, as a natural number below `2 ^ w`, of the `w`-bit two's-complement
integer `x`. -/
def toUnsigned (w : Nat) (x : Int) : Nat := (x % 2 ^ w).toNat

/-- The `w`-bit two's-complement integer whose bit pattern is `u % 2 ^ w`. -/
def toSigned (w : Nat) (u : Nat) : Int :=
  if u % 2 ^ w < 2 ^ (w - 1) then ((u % 2 ^ w : Nat) : Int)
  else ((u % 2 ^ w : Nat) : Int) - 2 ^ w

/-- Go `x << s` on a `w`-bit `int`: the bits shifted out are lost, a count of `w` or more
gives zero. -/
def intShl (w : Nat) (x : Int) (s : Nat) : Int := toSigned w (toUnsigned w x * 2 ^ s)

/-- Go `x & y` on `w`-bit `int`s. -/
def intAnd (w : Nat) (x y : Int) : Int := toSigned w (toUnsigned w x &&& toUnsigned w y)

/-- Source `hasBit` (exporter.go, lines 108-111):
`val := n & (1 << pos); return (val > 0)`. -/
def hasBit (w : Nat) (n : Int) (pos : Nat) : Bool :=
  let val := intAnd w n (intShl w 1 pos)
  decide (val > 0)

/-- The bit test in the words of the specification, `(value & (1 << position)) != 0`. -/
def hasBitSpec (w : Nat) (n : Int) (pos : Nat) : Bool :=
  decide (intAnd w n (intShl w 1 pos) ≠ 0)

/-! ## Errors, readers, descriptors, metrics -/

/-- A Go `error` value: a plain message, or `fmt.Errorf("<text>: %w", cause)`. -/
inductive Error where
  | msg (text : String)
  | wrapped (text : String) (cause : Error)
  deriving DecidableEq

/-- A `bytes.Reader`: the underlying bytes and the read offset. -/
structure Reader where
  data : List UInt8
  off : Nat
  deriving DecidableEq

/-- Library `bytes.NewReader`. -/
def NewReader (data : List UInt8) : Reader := ⟨data, 0⟩

/-- Library `ioutil.ReadAll` on a `bytes.Reader`: everything from the offset on. -/
def Reader.readAll (r : Reader) : List UInt8 := r.data.drop r.off

/-- A `prometheus.Desc` built without labels. -/
structure Desc where
  fqName : String
  help : String
  deriving DecidableEq

/-- Library `prometheus.BuildFQName`: the non-empty parts joined by an underscore. -/
def BuildFQName (ns subsystem name : String) : String :=
  if name = "" then ""
  else if ns ≠ "" ∧ subsystem ≠ "" then ns ++ "_" ++ subsystem ++ "_" ++ name
  else if ns ≠ "" then ns ++ "_" ++ name
  else if subsystem ≠ "" then subsystem ++ "_" ++ name
  else name

/-- Library `prometheus.NewDesc(fqName, help, nil, nil)`. -/
def NewDesc (fqName help : String) : Desc := ⟨fqName, help⟩

/-- Library `prometheus.ValueType`. -/
inductive ValueType where
  | CounterValue
  | GaugeValue
  | UntypedValue
  deriving DecidableEq

/-- A constant metric. The value is a `float64` in the source; `Collect` itself only writes
the constants `0` and `1`. -/
structure Metric where
  desc : Desc
  valueType : ValueType
  value : Int
  deriving DecidableEq

/-- Library `prometheus.MustNewConstMetric` without label values. -/
def MustNewConstMetric (desc : Desc) (valueType : ValueType) (value : Int) : Metric :=
  ⟨desc, valueType, value⟩

/-- Source constant `Namespace`. -/
def Namespace : String := "rpi"

/-- A `*logrus.Logger`. -/
structure Logger where
  id : Nat
  deriving DecidableEq

/-! ## The exporter -/

/-- Source struct `Exporter` (lines 20-28). A nil pointer or nil interface is `none`.
The last field, `time`, is assigned by `New` although the struct declaration does not
list it. -/
structure Exporter where
  logger : Logger
  throttleStatus : Option Reader
  underVoltageDetected : Option Desc
  armFrequencyCapped : Option Desc
  throttledState : Option Desc
  softTempLimit : Option Desc
  time : Option Desc
  deriving DecidableEq

/-- Source `New` (lines 31-53): the composite literal sets `logger`,
`underVoltageDetected`, `armFrequencyCapped` and `time`; every other field keeps its zero
value. -/
def New (logger : Logger) : Exporter :=
  { logger := logger
    throttleStatus := none
    underVoltageDetected := some (NewDesc
      (BuildFQName Namespace "" "undervoltage_detected")
      "Power supply voltage is currently under threshold")
    armFrequencyCapped := some (NewDesc
      (BuildFQName Namespace "" "arm_frequency_capped")
      "ARM chip clock speed is currently capped")
    throttledState := none
    softTempLimit := none
    time := some (NewDesc
      (BuildFQName Namespace "" "time_seconds")
      "current UNIX time according to the server.") }

/-! ## getThrottled -/

/-- The outcome of each call `getThrottled` makes on the subprocess. -/
structure CmdEnv where
  /-- Error of `cmd.StdoutPipe()`. -/
  stdoutPipe : Option Error
  /-- Error of `cmd.Start()`; the source discards it. -/
  start : Option Error
  /-- Result of `ioutil.ReadAll(out)`: the bytes read and the error. -/
  readAll : List UInt8 × Option Error
  /-- Error of `cmd.Wait()`. -/
  wait : Option Error

/-- Source `getThrottled` (lines 88-106). The result is the pair `(io.Reader, error)`. -/
def getThrottled (env : CmdEnv) : Option Reader × Option Error :=
  match env.stdoutPipe with
  | some err => (none, some (Error.wrapped "failed to read stdout pipe" err))
  | none =>
    match env.readAll with
    | (_, some err) => (none, some (Error.wrapped "failed to read command output" err))
    | (data, none) =>
      match env.wait with
      | some err => (some (NewReader data), some (Error.wrapped "vcgencmd execution failed" err))
      | none => (some (NewReader data), none)

/-! ## Collect -/

/-- The fields `Collect` reads from the exporter that the struct declaration in the source
does not list. -/
structure CacheFields where
  address : String
  timeout : Nat
  up : Desc

/-- The outcome of each call `Collect` makes. `σ` is the type of the value returned by
`Stats`, `τ` the one returned by `StatsSettings`. The decoders `parseStats` and
`parseStatsSettings` are not part of the source file: they are given by the metrics they
write to the channel and the error they return. -/
structure CacheEnv (σ τ : Type) where
  /-- Error of `memcache.New(e.address)`. -/
  newClient : Option Error
  /-- Result of `c.Stats()`. -/
  stats : σ × Option Error
  /-- Result of `c.StatsSettings()`. -/
  statsSettings : τ × Option Error
  /-- Effect and result of `e.parseStats(ch, stats)`. -/
  parseStats : σ → List Metric × Option Error
  /-- Effect and result of `e.parseStatsSettings(ch, statsSettings)`. -/
  parseStatsSettings : τ → List Metric × Option Error

/-- One step of `Collect`. -/
inductive Step where
  | newClient (address : String)
  | setTimeout (timeout : Nat)
  | stats
  | statsSettings
  | parseStats
  | parseStatsSettings
  | send (m : Metric)
  | logError (logger : Logger) (text : String)
  deriving DecidableEq

/-- What one call of `Collect` did: the steps in order, and the output channel. -/
structure Run where
  trace : List Step
  ch : List Metric
  deriving DecidableEq

/-- Record a step. -/
def Run.step (r : Run) (s : Step) : Run := ⟨r.trace ++ [s], r.ch⟩

/-- The statement `ch <- m` of `Collect`. -/
def Run.send (r : Run) (m : Metric) : Run := ⟨r.trace ++ [Step.send m], r.ch ++ [m]⟩

/-- A call of a decoder: the step is recorded and the decoder's metrics reach the channel. -/
def Run.call (r : Run) (s : Step) (written : List Metric) : Run :=
  ⟨r.trace ++ [s], r.ch ++ written⟩

/-- Source `Exporter.Collect` (lines 57-86). -/
def Collect {σ τ : Type} (e : Exporter) (cfg : CacheFields) (env : CacheEnv σ τ) : Run :=
  let r : Run := Run.step ⟨[], []⟩ (Step.newClient cfg.address)
  match env.newClient with
  | some _ =>
    let r := r.send (MustNewConstMetric cfg.up ValueType.GaugeValue 0)
    r.step (Step.logError e.logger "Failed to connect to memcached")
  | none =>
    let r := r.step (Step.setTimeout cfg.timeout)
    let up : Int := 1
    let r := r.step Step.stats
    let (r, up) := match env.stats.2 with
      | some _ => (r.step (Step.logError e.logger "Failed to collect stats from memcached"), 0)
      | none => (r, up)
    let r := r.step Step.statsSettings
    let (r, up) := match env.statsSettings.2 with
      | some _ => (r.step (Step.logError e.logger "Could not query stats settings"), 0)
      | none => (r, up)
    let p := env.parseStats env.stats.1
    let r := r.call Step.parseStats p.1
    let up := match p.2 with
      | some _ => 0
      | none => up
    let q := env.parseStatsSettings env.statsSettings.1
    let r := r.call Step.parseStatsSettings q.1
    let up := match q.2 with
      | some _ => 0
      | none => up
    r.send (MustNewConstMetric cfg.up ValueType.GaugeValue up)

/-- The metrics `Collect` wrote itself (its `ch <- ...` statements), in order. -/
def Run.sends (r : Run) : List Metric :=
  r.trace.filterMap (fun s => match s with
    | Step.send m => some m
    | _ => none)

/-- The stages of a run: its steps without the log lines. -/
def Run.stages (r : Run) : List Step :=
  r.trace.filter (fun s => match s with
    | Step.logError _ _ => false
    | _ => true)

/-- Some step of `Collect` fails in this environment. -/
def anyFailed {σ τ : Type} (env : CacheEnv σ τ) : Bool :=
  env.newClient.isSome || env.stats.2.isSome || env.statsSettings.2.isSome ||
    (env.parseStats env.stats.1).2.isSome ||
    (env.parseStatsSettings env.statsSettings.1).2.isSome

/-- The number of metrics on the channel that carry descriptor `d`. -/
def countDesc (d : Desc) (ch : List Metric) : Nat :=
  (ch.filter (fun m => decide (m.desc = d))).length

/-! ## Concrete scrapes -/

/-- The bytes of a text, one per character (ASCII). -/
def asciiBytes (s : String) : List UInt8 := s.toList.map (fun c => c.toNat.toUInt8)

/-- The line the hardware tool prints for the status word `0x50005`. -/
def throttledOutput : List UInt8 := asciiBytes "throttled=0x50005\n"

/-- A subprocess that prints `throttled=0x50005` and exits with status zero. -/
def throttledCmd : CmdEnv := ⟨none, none, (throttledOutput, none), none⟩

/-- The exporter of `New` holding the hardware status read by `getThrottled`. -/
def throttledExporter : Exporter :=
  { New ⟨0⟩ with throttleStatus := (getThrottled throttledCmd).1 }

/-- Values for the fields of the cache source. -/
def sampleFields : CacheFields :=
  ⟨"localhost:11211", 1, NewDesc (BuildFQName Namespace "" "up")
    "Could the memcached server be reached."⟩

/-- A cache fact, as a decoder writes it. -/
def sampleFact : Metric :=
  MustNewConstMetric (NewDesc (BuildFQName Namespace "" "current_items")
    "Current number of items stored by this instance.") ValueType.GaugeValue 42

/-- Every step succeeds; the decoders write nothing. -/
def allOk : CacheEnv Unit Unit :=
  ⟨none, ((), none), ((), none), fun _ => ([], none), fun _ => ([], none)⟩

/-- The cache client cannot be created. -/
def noClient : CacheEnv Unit Unit :=
  ⟨some (Error.msg "invalid address"), ((), none), ((), none),
    fun _ => ([], none), fun _ => ([], none)⟩

/-- The `Stats` fetch fails, every other step succeeds; `parseStats` writes one fact. -/
def statsDown : CacheEnv Unit Unit :=
  ⟨none, ((), some (Error.msg "connection refused")), ((), none),
    fun _ => ([sampleFact], none), fun _ => ([], none)⟩

/-! ## Fixed-width integers: helper lemmas -/

theorem toUnsigned_lt (w : Nat) (x : Int) : toUnsigned w x < 2 ^ w := by
  unfold toUnsigned
  have h2 : (0 : Int) < 2 ^ w := by positivity
  have h1 := Int.emod_lt_of_pos x h2
  have h0 := Int.emod_nonneg x (ne_of_gt h2)
  zify
  rw [Int.toNat_of_nonneg h0]
  exact_mod_cast h1

theorem toUnsigned_toSigned (w : Nat) (u : Nat) : toUnsigned w (toSigned w u) = u % 2 ^ w := by
  unfold toUnsigned toSigned
  have hlt : u % 2 ^ w < 2 ^ w := Nat.mod_lt _ (by positivity)
  split
  · have : (((u % 2 ^ w : Nat) : Int)) % 2 ^ w = ((u % 2 ^ w : Nat) : Int) := by
      apply Int.emod_eq_of_lt
      · positivity
      · exact_mod_cast hlt
    rw [this]; exact Int.toNat_natCast _
  · have : (((u % 2 ^ w : Nat) : Int) - 2 ^ w) % 2 ^ w = ((u % 2 ^ w : Nat) : Int) := by
      rw [Int.sub_emod, Int.emod_self, sub_zero, Int.emod_emod]
      apply Int.emod_eq_of_lt
      · positivity
      · exact_mod_cast hlt
    rw [this]; exact Int.toNat_natCast _

theorem toUnsigned_one (w : Nat) (hw : 0 < w) : toUnsigned w 1 = 1 := by
  unfold toUnsigned
  have : (1 : Int) % 2 ^ w = 1 := by
    apply Int.emod_eq_of_lt (by norm_num)
    have : (2 : Int) ^ 1 ≤ 2 ^ w := pow_le_pow_right₀ (by norm_num) hw
    omega
  rw [this]; rfl

theorem toUnsigned_of_nonneg (w : Nat) (n : Int) (h0 : 0 ≤ n) (h1 : n < 2 ^ w) :
    toUnsigned w n = n.toNat := by
  unfold toUnsigned
  rw [Int.emod_eq_of_lt h0 h1]

/-- The bit pattern of `n & (1 << pos)`. -/
theorem and_shl_pattern (w : Nat) (hw : 0 < w) (n : Int) (pos : Nat) :
    toUnsigned w n &&& toUnsigned w (intShl w 1 pos) =
      if pos < w ∧ (toUnsigned w n).testBit pos = true then 2 ^ pos else 0 := by
  unfold intShl
  rw [toUnsigned_toSigned, toUnsigned_one w hw, one_mul]
  by_cases hp : pos < w
  · rw [Nat.mod_eq_of_lt (Nat.pow_lt_pow_right (by norm_num) hp), Nat.and_two_pow]
    cases h : (toUnsigned w n).testBit pos <;> simp [hp]
  · have hdvd : 2 ^ w ∣ 2 ^ pos := pow_dvd_pow 2 (Nat.le_of_not_lt hp)
    rw [Nat.mod_eq_zero_of_dvd hdvd]
    simp [hp]

theorem toSigned_two_pow (w : Nat) (pos : Nat) (hp : pos < w) :
    toSigned w (2 ^ pos) = if pos + 1 < w then (2 : Int) ^ pos else -(2 : Int) ^ pos := by
  unfold toSigned
  rw [Nat.mod_eq_of_lt (Nat.pow_lt_pow_right (by norm_num) hp)]
  by_cases h : pos + 1 < w
  · have : 2 ^ pos < 2 ^ (w - 1) := Nat.pow_lt_pow_right (by norm_num) (by omega)
    simp [this, h]
  · have hw : pos = w - 1 := by omega
    have hw2 : w = pos + 1 := by omega
    have : ¬ 2 ^ pos < 2 ^ (w - 1) := by rw [← hw]; exact lt_irrefl _
    rw [if_neg this, if_neg h, hw2]
    push_cast
    ring

theorem toSigned_zero (w : Nat) : toSigned w 0 = 0 := by
  unfold toSigned
  simp

/-- The value of `n & (1 << pos)`. -/
theorem intAnd_shl_one (w : Nat) (hw : 0 < w) (n : Int) (pos : Nat) :
    intAnd w n (intShl w 1 pos) =
      if pos < w ∧ (toUnsigned w n).testBit pos = true then
        (if pos + 1 < w then (2 : Int) ^ pos else -(2 : Int) ^ pos)
      else 0 := by
  unfold intAnd
  rw [and_shl_pattern w hw]
  by_cases h : pos < w ∧ (toUnsigned w n).testBit pos = true
  · rw [if_pos h, if_pos h, toSigned_two_pow w pos h.1]
  · rw [if_neg h, if_neg h, toSigned_zero]

/-- The source test `val > 0` sees every bit below the sign bit. -/
theorem hasBit_iff (w : Nat) (hw : 0 < w) (n : Int) (pos : Nat) :
    hasBit w n pos = true ↔ pos + 1 < w ∧ (toUnsigned w n).testBit pos = true := by
  unfold hasBit
  simp only [intAnd_shl_one w hw, decide_eq_true_eq]
  have hpos : (0 : Int) < 2 ^ pos := by positivity
  by_cases h1 : pos + 1 < w
  · have : pos < w := by omega
    by_cases h2 : (toUnsigned w n).testBit pos = true <;> simp [h1, h2, this, hpos]
  · by_cases h2 : pos < w ∧ (toUnsigned w n).testBit pos = true
    · simp only [h2, h1, and_self, if_true, if_false, false_and, iff_false]
      omega
    · simp [h2, h1]

/-- The test `!= 0` of the specification sees every bit, the sign bit included. -/
theorem hasBitSpec_iff (w : Nat) (hw : 0 < w) (n : Int) (pos : Nat) :
    hasBitSpec w n pos = true ↔ pos < w ∧ (toUnsigned w n).testBit pos = true := by
  unfold hasBitSpec
  simp only [intAnd_shl_one w hw, decide_eq_true_eq]
  have hpos : (0 : Int) < 2 ^ pos := by positivity
  by_cases h2 : pos < w ∧ (toUnsigned w n).testBit pos = true
  · simp only [h2, and_self, if_true, iff_true]
    split <;> omega
  · simp [h2]

/-- The sign bit of the pattern of an `int` is set exactly when the `int` is negative. -/
theorem testBit_sign (w : Nat) (hw : 0 < w) (n : Int) (hlo : -2 ^ (w - 1) ≤ n)
    (hhi : n < 2 ^ (w - 1)) :
    (toUnsigned w n).testBit (w - 1) = true ↔ n < 0 := by
  have hpow : (2 : Int) ^ w = 2 * 2 ^ (w - 1) := by
    rw [← pow_succ']
    congr 1
    omega
  have hpowN : (2 : Nat) ^ w = 2 * 2 ^ (w - 1) := by
    rw [← pow_succ']
    congr 1
    omega
  have hposI : (0 : Int) < 2 ^ (w - 1) := by positivity
  by_cases hn : 0 ≤ n
  · have hu : toUnsigned w n = n.toNat := toUnsigned_of_nonneg w n hn (by omega)
    have hlt : n.toNat < 2 ^ (w - 1) := by
      zify
      rw [Int.toNat_of_nonneg hn]
      exact_mod_cast hhi
    rw [hu, Nat.testBit_lt_two_pow hlt]
    simp
    exact hn
  · have hneg : n < 0 := by omega
    have hmod : n % 2 ^ w = n + 2 ^ w := by
      rw [← Int.add_emod_self]
      exact Int.emod_eq_of_lt (by omega) (by omega)
    have hu : ((toUnsigned w n : Nat) : Int) = n + 2 ^ w := by
      unfold toUnsigned
      rw [hmod, Int.toNat_of_nonneg (by omega)]
    have h1 : 2 ^ (w - 1) ≤ toUnsigned w n := by
      zify
      rw [hu]
      omega
    have h2 : toUnsigned w n < 2 * 2 ^ (w - 1) := by
      zify
      rw [hu]
      omega
    have hdiv : toUnsigned w n / 2 ^ (w - 1) = 1 :=
      Nat.div_eq_of_lt_le (by omega) (by omega)
    rw [Nat.testBit_to_div_mod, hdiv]
    simp [hneg]

/-- The source test and the test of the specification differ exactly at the sign bit of a
negative `int`. -/
theorem hasBit_ne_hasBitSpec_iff (w : Nat) (hw : 0 < w) (n : Int) (hlo : -2 ^ (w - 1) ≤ n)
    (hhi : n < 2 ^ (w - 1)) (pos : Nat) :
    hasBit w n pos ≠ hasBitSpec w n pos ↔ pos + 1 = w ∧ n < 0 := by
  have h1 := hasBit_iff w hw n pos
  have h2 := hasBitSpec_iff w hw n pos
  have h3 := testBit_sign w hw n hlo hhi
  constructor
  · intro hne
    by_cases hp : pos + 1 = w
    · refine ⟨hp, ?_⟩
      have hpw : pos = w - 1 := by omega
      rw [← hpw] at h3
      by_contra hn
      have hb : (toUnsigned w n).testBit pos = false := by
        cases hc : (toUnsigned w n).testBit pos
        · rfl
        · exact absurd (h3.mp hc) hn
      apply hne
      have a1 : hasBit w n pos = false := by
        cases hc : hasBit w n pos
        · rfl
        · have := (h1.mp hc).2
          rw [hb] at this
          exact absurd this (by simp)
      have a2 : hasBitSpec w n pos = false := by
        cases hc : hasBitSpec w n pos
        · rfl
        · have := (h2.mp hc).2
          rw [hb] at this
          exact absurd this (by simp)
      rw [a1, a2]
    · exfalso
      apply hne
      have hiff : hasBit w n pos = true ↔ hasBitSpec w n pos = true := by
        rw [h1, h2]
        constructor
        · rintro ⟨a, b⟩
          exact ⟨by omega, b⟩
        · rintro ⟨a, b⟩
          exact ⟨by omega, b⟩
      exact Bool.eq_iff_iff.mpr hiff
  · rintro ⟨hp, hn⟩
    have hpw : pos = w - 1 := by omega
    rw [← hpw] at h3
    have hb := h3.mpr hn
    have a2 : hasBitSpec w n pos = true := h2.mpr ⟨by omega, hb⟩
    have a1 : hasBit w n pos = false := by
      cases hc : hasBit w n pos
      · rfl
      · have := (h1.mp hc).1
        omega
    rw [a1, a2]
    simp

/-- On a non-negative `int` the source test is the test of bit `pos` of the value. -/
theorem hasBit_natCast (w : Nat) (hw : 0 < w) (m : Nat) (h1 : m < 2 ^ (w - 1)) (pos : Nat) :
    hasBit w (m : Int) pos = true ↔ m / 2 ^ pos % 2 = 1 := by
  have hle : 2 ^ (w - 1) ≤ 2 ^ w := Nat.pow_le_pow_right (by norm_num) (by omega)
  have hu : toUnsigned w (m : Int) = m := by
    rw [toUnsigned_of_nonneg w _ (by positivity) (by exact_mod_cast lt_of_lt_of_le h1 hle)]
    exact Int.toNat_natCast _
  rw [hasBit_iff w hw, hu, Nat.testBit_to_div_mod, decide_eq_true_eq]
  constructor
  · exact fun h => h.2
  · intro h
    refine ⟨?_, h⟩
    by_contra hp
    have h2 : 2 ^ (w - 1) ≤ 2 ^ pos := Nat.pow_le_pow_right (by norm_num) (by omega)
    rw [Nat.div_eq_of_lt (lt_of_lt_of_le h1 h2)] at h
    simp at h


/-! ## Collect: helper lemmas -/

/-- The run of `Collect` when the cache client cannot be created. -/
theorem Collect_of_newClient_error {σ τ : Type} (e : Exporter) (cfg : CacheFields)
    (env : CacheEnv σ τ) (err : Error) (h : env.newClient = some err) :
    Collect e cfg env =
      ⟨[Step.newClient cfg.address,
          Step.send (MustNewConstMetric cfg.up ValueType.GaugeValue 0),
          Step.logError e.logger "Failed to connect to memcached"],
        [MustNewConstMetric cfg.up ValueType.GaugeValue 0]⟩ := by
  simp [Collect, h, Run.step, Run.send]

/-- The stages of `Collect`, in order, once the cache client exists. -/
theorem Collect_stages_of_client {σ τ : Type} (e : Exporter) (cfg : CacheFields)
    (env : CacheEnv σ τ) (h : env.newClient = none) :
    (Collect e cfg env).stages =
      [Step.newClient cfg.address, Step.setTimeout cfg.timeout, Step.stats,
        Step.statsSettings, Step.parseStats, Step.parseStatsSettings,
        Step.send (MustNewConstMetric cfg.up ValueType.GaugeValue
          (if anyFailed env = true then 0 else 1))] := by
  rcases env with ⟨nc, ⟨s, se⟩, ⟨t, te⟩, ps, pt⟩
  simp only at h
  subst h
  cases se <;> cases te <;> cases h1 : (ps s).2 <;> cases h2 : (pt t).2 <;>
    simp [Collect, anyFailed, Run.stages, Run.step, Run.send, Run.call, h1, h2]

/-- The channel after `Collect`, once the cache client exists: what the two decoders wrote,
then the liveness metric. -/
theorem Collect_ch_of_client {σ τ : Type} (e : Exporter) (cfg : CacheFields)
    (env : CacheEnv σ τ) (h : env.newClient = none) :
    (Collect e cfg env).ch =
      (env.parseStats env.stats.1).1 ++ (env.parseStatsSettings env.statsSettings.1).1 ++
        [MustNewConstMetric cfg.up ValueType.GaugeValue
          (if anyFailed env = true then 0 else 1)] := by
  rcases env with ⟨nc, ⟨s, se⟩, ⟨t, te⟩, ps, pt⟩
  simp only at h
  subst h
  cases se <;> cases te <;> cases h1 : (ps s).2 <;> cases h2 : (pt t).2 <;>
    simp [Collect, anyFailed, Run.step, Run.send, Run.call, h1, h2]

/-- The metrics `Collect` writes itself: one `up` gauge, 0 or 1. -/
theorem Collect_sends {σ τ : Type} (e : Exporter) (cfg : CacheFields) (env : CacheEnv σ τ) :
    (Collect e cfg env).sends =
      [MustNewConstMetric cfg.up ValueType.GaugeValue
        (if anyFailed env = true then 0 else 1)] := by
  rcases env with ⟨nc, ⟨s, se⟩, ⟨t, te⟩, ps, pt⟩
  cases nc <;> cases se <;> cases te <;> cases h1 : (ps s).2 <;> cases h2 : (pt t).2 <;>
    simp [Collect, anyFailed, Run.sends, Run.step, Run.send, Run.call, h1, h2]

/-- The steps of a run that are not log lines are kept by `Run.stages`, so counting such a
step in the trace or in the stages gives the same number. -/
theorem count_trace_eq_count_stages (r : Run) (s : Step)
    (hs : ∀ l t, s ≠ Step.logError l t) :
    r.trace.count s = r.stages.count s := by
  unfold Run.stages
  rw [List.count_filter]
  cases s <;> simp at hs ⊢

/-! ## Collect: the liveness value and the stages -/

/-- Claim C1: for every combination of outcomes of the steps of `Collect` (creating the
cache client, `Stats`, `StatsSettings`, `parseStats`, `parseStatsSettings`), `Collect`
itself writes exactly one metric, the gauge `up`, it is the last metric on the channel, and
its value is 0 if any one of the steps failed and 1 if all of them succeeded. -/
theorem C1_liveness_value {σ τ : Type} (e : Exporter) (cfg : CacheFields)
    (env : CacheEnv σ τ) :
    (Collect e cfg env).sends =
        [MustNewConstMetric cfg.up ValueType.GaugeValue
          (if anyFailed env = true then 0 else 1)] ∧
      (Collect e cfg env).ch.getLast? =
        some (MustNewConstMetric cfg.up ValueType.GaugeValue
          (if anyFailed env = true then 0 else 1)) := by
  refine ⟨Collect_sends e cfg env, ?_⟩
  cases hnc : env.newClient with
  | some err =>
    rw [Collect_of_newClient_error e cfg env err hnc]
    simp [anyFailed, hnc]
  | none =>
    rw [Collect_ch_of_client e cfg env hnc]
    simp

/-- Claim C2, as stated, fails: when the cache client cannot be created `Collect`
writes liveness 0, logs and returns; neither fetch and neither decoder runs. -/
theorem C2_counterexample :
    (Collect (New ⟨0⟩) sampleFields noClient).trace =
        [Step.newClient "localhost:11211",
          Step.send (MustNewConstMetric sampleFields.up ValueType.GaugeValue 0),
          Step.logError ⟨0⟩ "Failed to connect to memcached"] ∧
      Step.stats ∉ (Collect (New ⟨0⟩) sampleFields noClient).trace ∧
      Step.statsSettings ∉ (Collect (New ⟨0⟩) sampleFields noClient).trace ∧
      Step.parseStats ∉ (Collect (New ⟨0⟩) sampleFields noClient).trace ∧
      Step.parseStatsSettings ∉ (Collect (New ⟨0⟩) sampleFields noClient).trace := by
  decide

/-- Claim C2, amended: once the cache client has been created, no failure of a later step aborts
the scrape: for every combination of outcomes of the two fetches and the two decoders
`Collect` runs, in this order, `Stats`, `StatsSettings`, `parseStats`, `parseStatsSettings`
and the final emission of the liveness. When the cache client cannot be created, `Collect`
emits liveness 0 and returns without running the later stages. -/
theorem C2_stages {σ τ : Type} (e : Exporter) (cfg : CacheFields) (env : CacheEnv σ τ) :
    (env.newClient = none →
        (Collect e cfg env).stages =
          [Step.newClient cfg.address, Step.setTimeout cfg.timeout, Step.stats,
            Step.statsSettings, Step.parseStats, Step.parseStatsSettings,
            Step.send (MustNewConstMetric cfg.up ValueType.GaugeValue
              (if anyFailed env = true then 0 else 1))]) ∧
      (env.newClient ≠ none →
        (Collect e cfg env).stages =
          [Step.newClient cfg.address,
            Step.send (MustNewConstMetric cfg.up ValueType.GaugeValue 0)]) := by
  constructor
  · exact Collect_stages_of_client e cfg env
  · intro h
    obtain ⟨err, herr⟩ := Option.ne_none_iff_exists'.mp h
    rw [Collect_of_newClient_error e cfg env err herr]
    simp [Run.stages]

/-- Claim C2, amended, on a scrape whose `Stats` fetch fails and on a scrape without a
cache client. -/
theorem C2_witness :
    (Collect (New ⟨0⟩) sampleFields statsDown).stages =
        [Step.newClient "localhost:11211", Step.setTimeout 1, Step.stats,
          Step.statsSettings, Step.parseStats, Step.parseStatsSettings,
          Step.send (MustNewConstMetric sampleFields.up ValueType.GaugeValue 0)] ∧
      (Collect (New ⟨0⟩) sampleFields noClient).stages =
        [Step.newClient "localhost:11211",
          Step.send (MustNewConstMetric sampleFields.up ValueType.GaugeValue 0)] :=
  ⟨(C2_stages (New ⟨0⟩) sampleFields statsDown).1 rfl,
    (C2_stages (New ⟨0⟩) sampleFields noClient).2 (by decide)⟩

/-- Claim C3, as stated, fails: in a scrape where every step succeeds the channel
holds a single metric, so there are no two distinct descriptors (one per source) that each
occur exactly once. -/
theorem C3_counterexample :
    (Collect (New ⟨0⟩) sampleFields allOk).ch =
        [MustNewConstMetric sampleFields.up ValueType.GaugeValue 1] ∧
      ¬ ∃ hardwareUp cacheUp : Desc, hardwareUp ≠ cacheUp ∧
          countDesc hardwareUp (Collect (New ⟨0⟩) sampleFields allOk).ch = 1 ∧
          countDesc cacheUp (Collect (New ⟨0⟩) sampleFields allOk).ch = 1 := by
  have hch : (Collect (New ⟨0⟩) sampleFields allOk).ch =
      [MustNewConstMetric sampleFields.up ValueType.GaugeValue 1] := by decide
  refine ⟨hch, ?_⟩
  rintro ⟨d1, d2, hne, h1, h2⟩
  rw [hch] at h1 h2
  apply hne
  have e1 : (MustNewConstMetric sampleFields.up ValueType.GaugeValue 1).desc = d1 := by
    by_contra hc
    simp [countDesc, List.filter, hc] at h1
  have e2 : (MustNewConstMetric sampleFields.up ValueType.GaugeValue 1).desc = d2 := by
    by_contra hc
    simp [countDesc, List.filter, hc] at h2
  rw [← e1, ← e2]

/-- Claim C3, amended: for every combination of step outcomes, `Collect` itself writes
exactly one liveness metric in one run, the gauge `up` of the cache source, never zero and
never two, and nothing else, so there is no liveness metric of the hardware source. The
number of `up` metrics on the output channel is that one plus the `up` metrics that the
decoders `parseStats` and `parseStatsSettings` wrote themselves when they ran; on the
condition that the decoders write no metric with the descriptor `up` (they write facts),
the channel holds exactly one. -/
theorem C3_one_liveness {σ τ : Type} (e : Exporter) (cfg : CacheFields)
    (env : CacheEnv σ τ) :
    ((Collect e cfg env).sends.length = 1 ∧
        ∀ m ∈ (Collect e cfg env).sends, m.desc = cfg.up) ∧
      countDesc cfg.up (Collect e cfg env).ch =
        1 + (if env.newClient.isSome = true then 0
          else countDesc cfg.up (env.parseStats env.stats.1).1 +
            countDesc cfg.up (env.parseStatsSettings env.statsSettings.1).1) ∧
      ((∀ s, ∀ m ∈ (env.parseStats s).1, m.desc ≠ cfg.up) →
        (∀ t, ∀ m ∈ (env.parseStatsSettings t).1, m.desc ≠ cfg.up) →
        countDesc cfg.up (Collect e cfg env).ch = 1) := by
  have hsends := Collect_sends e cfg env
  have hcount : countDesc cfg.up (Collect e cfg env).ch =
      1 + (if env.newClient.isSome = true then 0
        else countDesc cfg.up (env.parseStats env.stats.1).1 +
          countDesc cfg.up (env.parseStatsSettings env.statsSettings.1).1) := by
    cases hnc : env.newClient with
    | some err =>
      rw [Collect_of_newClient_error e cfg env err hnc]
      simp [countDesc, MustNewConstMetric]
    | none =>
      rw [Collect_ch_of_client e cfg env hnc]
      simp [countDesc, List.filter_append, MustNewConstMetric]
      omega
  refine ⟨⟨by rw [hsends]; rfl, ?_⟩, hcount, ?_⟩
  · intro m hm
    rw [hsends] at hm
    simp at hm
    rw [hm]
    rfl
  · intro hp hq
    have f1 : countDesc cfg.up (env.parseStats env.stats.1).1 = 0 := by
      unfold countDesc
      rw [List.length_eq_zero]
      exact List.filter_eq_nil_iff.mpr (fun m hm => by simpa using hp _ m hm)
    have f2 : countDesc cfg.up (env.parseStatsSettings env.statsSettings.1).1 = 0 := by
      unfold countDesc
      rw [List.length_eq_zero]
      exact List.filter_eq_nil_iff.mpr (fun m hm => by simpa using hq _ m hm)
    rw [hcount, f1, f2]
    split <;> rfl

/-- Claim C3, amended, on a scrape whose `Stats` fetch fails while `parseStats` writes a
fact and no `up`: the channel holds one `up`. -/
theorem C3_witness :
    countDesc sampleFields.up (Collect (New ⟨0⟩) sampleFields statsDown).ch = 1 :=
  (C3_one_liveness (New ⟨0⟩) sampleFields statsDown).2.2 (by decide) (by decide)

/-! ## The hardware status word in a scrape -/

/-- Claim C4, as stated, fails: with the hardware tool printing `throttled=0x50005`
(read without error by `getThrottled` and held by the exporter) and every cache step
succeeding, the channel after `Collect` holds the single metric `up = 1` of the cache
source: no metric carries the descriptor of a hardware flag, and there is no second
(hardware) liveness metric. -/
theorem C4_counterexample :
    throttledExporter.throttleStatus = some (NewReader throttledOutput) ∧
      (Collect throttledExporter sampleFields allOk).ch =
        [MustNewConstMetric sampleFields.up ValueType.GaugeValue 1] ∧
      ∀ m ∈ (Collect throttledExporter sampleFields allOk).ch,
        some m.desc ≠ throttledExporter.underVoltageDetected ∧
        some m.desc ≠ throttledExporter.armFrequencyCapped ∧
        some m.desc ≠ throttledExporter.throttledState ∧
        some m.desc ≠ throttledExporter.softTempLimit := by
  decide

/-- Claim C4, amended: for the status word `0x50005` that the hardware tool reports, the bit test
`hasBit` gives bit 0 (under-voltage detected) true, bit 2 (throttled now) true and bit 3
(soft temperature limit) false; in a scrape whose steps all succeed the liveness `Collect`
writes is 1, and it is the single metric `up` of the cache source, whatever hardware status
the exporter holds: `Collect` has no liveness metric of the hardware source. -/
theorem C4_status_word_scrape {σ τ : Type} (w : Nat) (hw : w = 32 ∨ w = 64)
    (e : Exporter) (cfg : CacheFields) (env : CacheEnv σ τ)
    (hstatus : e.throttleStatus = (getThrottled throttledCmd).1)
    (hok : anyFailed env = false) :
    hasBit w 0x50005 0 = true ∧ hasBit w 0x50005 2 = true ∧ hasBit w 0x50005 3 = false ∧
      (e.throttleStatus.map Reader.readAll = some throttledOutput) ∧
      (Collect e cfg env).sends = [MustNewConstMetric cfg.up ValueType.GaugeValue 1] := by
  refine ⟨?_, ?_, ?_, ?_, ?_⟩
  · rcases hw with rfl | rfl <;> decide
  · rcases hw with rfl | rfl <;> decide
  · rcases hw with rfl | rfl <;> decide
  · rw [hstatus]; decide
  · have h := Collect_sends e cfg env
    rw [hok] at h
    simpa using h

/-- Claim C4, amended, on the exporter that holds the output `throttled=0x50005`, with a
64-bit `int`. -/
theorem C4_witness :
    hasBit 64 0x50005 0 = true ∧ hasBit 64 0x50005 2 = true ∧ hasBit 64 0x50005 3 = false ∧
      (throttledExporter.throttleStatus.map Reader.readAll = some throttledOutput) ∧
      (Collect throttledExporter sampleFields allOk).sends =
        [MustNewConstMetric sampleFields.up ValueType.GaugeValue 1] :=
  C4_status_word_scrape 64 (Or.inr rfl) throttledExporter sampleFields allOk rfl rfl

/-! ## hasBit -/

/-- Claim C5 fails on the code: for `n = -1` and `pos` the sign bit (63 on a 64-bit `int`,
31 on a 32-bit one) the value `n & (1 << pos)` is the most negative `int`, which is not
zero, so the test `!= 0` is true, while `hasBit`, which tests `val > 0`, returns false. -/
theorem C5_sign_bit :
    hasBit 64 (-1) 63 = false ∧ hasBitSpec 64 (-1) 63 = true ∧
      hasBit 32 (-1) 31 = false ∧ hasBitSpec 32 (-1) 31 = true := by
  decide

/-- Claim C6: for every non-negative `n` that fits in an `int` (32 or 64 bits) and every
bit position `pos`, `hasBit n pos` is true exactly when bit `pos` of `n` is 1, that is when
`n / 2 ^ pos` (rounded down) is odd; for `n = 0x50005` it is true exactly for `pos` in
`{0, 2, 16, 18}`. -/
theorem C6_hasBit_nonneg (w : Nat) (hw : w = 32 ∨ w = 64) (n : Int) (h0 : 0 ≤ n)
    (h1 : n < 2 ^ (w - 1)) (pos : Nat) :
    (hasBit w n pos = true ↔ n / 2 ^ pos % 2 = 1) ∧
      (hasBit w 0x50005 pos = true ↔ pos = 0 ∨ pos = 2 ∨ pos = 16 ∨ pos = 18) := by
  have hw0 : 0 < w := by omega
  constructor
  · obtain ⟨m, rfl⟩ := Int.eq_ofNat_of_zero_le h0
    have hm : m < 2 ^ (w - 1) := by exact_mod_cast h1
    rw [hasBit_natCast w hw0 m hm pos]
    constructor
    · intro h
      have : ((m / 2 ^ pos % 2 : Nat) : Int) = 1 := by rw [h]; rfl
      exact_mod_cast this
    · intro h
      exact_mod_cast h
  · have h5 : (0x50005 : Nat) < 2 ^ (w - 1) := by
      have : 2 ^ 19 ≤ 2 ^ (w - 1) := Nat.pow_le_pow_right (by norm_num) (by omega)
      omega
    have := hasBit_natCast w hw0 0x50005 h5 pos
    rw [show ((0x50005 : Nat) : Int) = 0x50005 from rfl] at this
    rw [this]
    by_cases hp : pos < 19
    · interval_cases pos <;> simp
    · have h2 : 2 ^ 19 ≤ 2 ^ pos := Nat.pow_le_pow_right (by norm_num) (by omega)
      rw [Nat.div_eq_of_lt (by omega)]
      simp
      omega

/-- Claim C6 on the status word `0x50005`, bit 16, with a 64-bit `int`. -/
theorem C6_witness :
    (hasBit 64 0x50005 16 = true ↔ (0x50005 : Int) / 2 ^ 16 % 2 = 1) ∧
      (hasBit 64 0x50005 16 = true ↔ 16 = 0 ∨ 16 = 2 ∨ 16 = 16 ∨ 16 = 18) :=
  C6_hasBit_nonneg 64 (Or.inr rfl) 0x50005 (by decide) (by decide) 16

/-! ## getThrottled -/

/-- Claim C7: for every output `data` the subprocess wrote: when the output was read completely
and `Wait` fails with `err`, `getThrottled` returns a non-nil error (wrapping `err`) together
with a reader yielding exactly `data`; when `Wait` succeeds it returns that reader with a nil
error; when obtaining the stdout pipe fails, or reading the output fails, it returns an error
and no reader. The outcome of `Start` plays no part. -/
theorem C7_getThrottled_results (data : List UInt8) (err : Error) (start wait : Option Error)
    (read : List UInt8 × Option Error) :
    (getThrottled ⟨none, start, (data, none), some err⟩ =
        (some (NewReader data), some (Error.wrapped "vcgencmd execution failed" err)) ∧
      (NewReader data).readAll = data) ∧
    getThrottled ⟨none, start, (data, none), none⟩ = (some (NewReader data), none) ∧
    getThrottled ⟨some err, start, read, wait⟩ =
      (none, some (Error.wrapped "failed to read stdout pipe" err)) ∧
    getThrottled ⟨none, start, (data, some err), wait⟩ =
      (none, some (Error.wrapped "failed to read command output" err)) := by
  refine ⟨⟨rfl, ?_⟩, rfl, rfl, rfl⟩
  simp [NewReader, Reader.readAll]

/-! ## New -/

/-- Claim C8 fails on the code: the exporter returned by `New` has the descriptors
`underVoltageDetected` and `armFrequencyCapped`, while `throttledState` and `softTempLimit`
are left nil. -/
theorem C8_New_leaves_descriptors_nil (logger : Logger) :
    (New logger).underVoltageDetected ≠ none ∧ (New logger).armFrequencyCapped ≠ none ∧
      (New logger).throttledState = none ∧ (New logger).softTempLimit = none := by
  simp [New]

/-! ## Collect: fetches and decoders -/

/-- Claim C9, as stated, fails: when the `Stats` fetch fails, `parseStats` is still
called, and what it writes reaches the channel. -/
theorem C9_counterexample :
    statsDown.stats.2 ≠ none ∧
      Step.parseStats ∈ (Collect (New ⟨0⟩) sampleFields statsDown).trace ∧
      sampleFact ∈ (Collect (New ⟨0⟩) sampleFields statsDown).ch := by
  decide

/-- Claim C9, amended: in `Collect` a decode stage is not skipped when its fetch fails: once the
cache client has been created, `parseStats` and `parseStatsSettings` are each called exactly
once for every outcome of the `Stats` and `StatsSettings` fetches, on whatever value the
fetch returned, and the metrics they write reach the channel; both are skipped only when the
cache client cannot be created. -/
theorem C9_decoders_always_run {σ τ : Type} (e : Exporter) (cfg : CacheFields)
    (env : CacheEnv σ τ) :
    (env.newClient = none →
        (Collect e cfg env).trace.count Step.parseStats = 1 ∧
        (Collect e cfg env).trace.count Step.parseStatsSettings = 1 ∧
        (env.parseStats env.stats.1).1 ++
          (env.parseStatsSettings env.statsSettings.1).1 <+: (Collect e cfg env).ch) ∧
      (env.newClient ≠ none →
        Step.parseStats ∉ (Collect e cfg env).trace ∧
        Step.parseStatsSettings ∉ (Collect e cfg env).trace) := by
  constructor
  · intro h
    refine ⟨?_, ?_, ?_⟩
    · rw [count_trace_eq_count_stages _ _ (by simp), Collect_stages_of_client e cfg env h]
      simp
    · rw [count_trace_eq_count_stages _ _ (by simp), Collect_stages_of_client e cfg env h]
      simp
    · rw [Collect_ch_of_client e cfg env h]
      exact List.prefix_append _ _
  · intro h
    obtain ⟨err, herr⟩ := Option.ne_none_iff_exists'.mp h
    rw [Collect_of_newClient_error e cfg env err herr]
    simp

/-- Claim C9, amended, on a scrape whose `Stats` fetch fails and on a scrape without a
cache client. -/
theorem C9_witness :
    ((Collect (New ⟨0⟩) sampleFields statsDown).trace.count Step.parseStats = 1 ∧
        (Collect (New ⟨0⟩) sampleFields statsDown).trace.count Step.parseStatsSettings = 1 ∧
        (statsDown.parseStats statsDown.stats.1).1 ++
            (statsDown.parseStatsSettings statsDown.statsSettings.1).1 <+:
          (Collect (New ⟨0⟩) sampleFields statsDown).ch) ∧
      (Step.parseStats ∉ (Collect (New ⟨0⟩) sampleFields noClient).trace ∧
        Step.parseStatsSettings ∉ (Collect (New ⟨0⟩) sampleFields noClient).trace) :=
  ⟨(C9_decoders_always_run (New ⟨0⟩) sampleFields statsDown).1 rfl,
    (C9_decoders_always_run (New ⟨0⟩) sampleFields noClient).2 (by decide)⟩

/-- Claim C10: once the cache client has been created, `Collect` attempts the `StatsSettings`
fetch for every outcome of the `Stats` fetch, after it, and each of the two fetches is
attempted exactly once in the scrape. -/
theorem C10_fetches_independent {σ τ : Type} (e : Exporter) (cfg : CacheFields)
    (env : CacheEnv σ τ) (h : env.newClient = none) :
    (Collect e cfg env).trace.count Step.stats = 1 ∧
      (Collect e cfg env).trace.count Step.statsSettings = 1 ∧
      [Step.stats, Step.statsSettings] <:+: (Collect e cfg env).stages := by
  refine ⟨?_, ?_, ?_⟩
  · rw [count_trace_eq_count_stages _ _ (by simp), Collect_stages_of_client e cfg env h]
    simp
  · rw [count_trace_eq_count_stages _ _ (by simp), Collect_stages_of_client e cfg env h]
    simp
  · rw [Collect_stages_of_client e cfg env h]
    exact ⟨[Step.newClient cfg.address, Step.setTimeout cfg.timeout],
      [Step.parseStats, Step.parseStatsSettings,
        Step.send (MustNewConstMetric cfg.up ValueType.GaugeValue
          (if anyFailed env = true then 0 else 1))], rfl⟩

/-- Claim C10 on a scrape whose `Stats` fetch fails. -/
theorem C10_witness :
    (Collect (New ⟨0⟩) sampleFields statsDown).trace.count Step.stats = 1 ∧
      (Collect (New ⟨0⟩) sampleFields statsDown).trace.count Step.statsSettings = 1 ∧
      [Step.stats, Step.statsSettings] <:+: (Collect (New ⟨0⟩) sampleFields statsDown).stages :=
  C10_fetches_independent (New ⟨0⟩) sampleFields statsDown rfl

end PiExporter
